import Mathlib

/-!  Verification of the recipe CRUD service (Django/DRF recipe app).

The embedding follows the repository source:
* `app/recipe/serializers.py` — `RecipeSerializer.create`, `RecipeSerializer.update`
  and the validation induced by the declared serializer fields under the
  Django-REST-framework defaults (`ingredients = IngredientSerializer(many=True)`
  is required, its `ListSerializer` accepts empty lists because `allow_empty`
  defaults to `true`; `name` is a required non-blank text field; `description`
  is optional).
* The Django ORM is modelled as an explicit store of recipe rows and ingredient
  rows; each ORM call commits on its own (autocommit — the source wraps nothing
  in a transaction), so a Python exception raised in the middle of
  `RecipeSerializer.update` leaves the already-executed deletes in place.  The
  unconditional `validated_data.pop('ingredients')` raises `KeyError` when the
  PATCH payload has no `ingredients` key; DRF surfaces that as a 500.
* `core/models.py` and `recipe/views.py` are not part of the source tree; the
  view endpoints (retrieve, list-with-filter, delete-with-cascade) and the
  model `__str__` methods are modelled from the spec where so marked.
-/

namespace RecipeApp

/-- An ingredient row: generated id, foreign key to the owning recipe, name. -/
structure Ingredient where
  id : Nat
  recipe : Nat
  name : String
deriving DecidableEq

/-- A recipe row: generated id, name, description. -/
structure Recipe where
  id : Nat
  name : String
  description : String
deriving DecidableEq

/-- The persistent store: the two tables plus the id sequences. -/
structure Store where
  recipes : List Recipe
  ingredients : List Ingredient
  nextRecipeId : Nat
  nextIngredientId : Nat
deriving DecidableEq

/-- `Ingredient.objects.filter(recipe=rid)` — the ingredient rows attached to a recipe. -/
def Store.ingredientsFor (s : Store) (rid : Nat) : List Ingredient :=
  s.ingredients.filter (fun i => i.recipe == rid)

/-- The names of the ingredient rows attached to a recipe, in row order. -/
def Store.ingredientNamesFor (s : Store) (rid : Nat) : List String :=
  (s.ingredientsFor rid).map (fun i => i.name)

/-- `Recipe.objects.get(id=rid)` — lookup of a recipe row by id. -/
def Store.findRecipe (s : Store) (rid : Nat) : Option Recipe :=
  s.recipes.find? (fun r => r.id == rid)

/-- `Ingredient.objects.create(recipe=rid, name=nm)` — insert one ingredient row. -/
def Store.createIngredient (s : Store) (rid : Nat) (nm : String) : Store :=
  { s with
    ingredients := s.ingredients ++ [{ id := s.nextIngredientId, recipe := rid, name := nm }]
    nextIngredientId := s.nextIngredientId + 1 }

/-- The payload shape of one nested ingredient: `{name}` only. -/
structure IngredientPayload where
  name : String
deriving DecidableEq

/-- The `for ingredient in ingredients: Ingredient.objects.create(...)` loop of the
serializer, inserting one row per payload entry in list order. -/
def Store.createIngredients : Store → Nat → List IngredientPayload → Store
  | s, _, [] => s
  | s, rid, ing :: rest => Store.createIngredients (s.createIngredient rid ing.name) rid rest

/-- `Ingredient.objects.filter(recipe=rid).delete()` — delete all ingredient rows of a recipe. -/
def Store.deleteIngredientsForRecipe (s : Store) (rid : Nat) : Store :=
  { s with ingredients := s.ingredients.filter (fun i => i.recipe != rid) }

/-- `instance.save()` — write the in-memory recipe object back to its row. -/
def Store.saveRecipe (s : Store) (r : Recipe) : Store :=
  { s with recipes := s.recipes.map (fun q => if q.id == r.id then r else q) }

/-- A Create (POST) payload: any of the three keys may be absent. -/
structure CreatePayload where
  name : Option String
  description : Option String
  ingredients : Option (List IngredientPayload)
deriving DecidableEq

/-- An Update (PATCH) payload: any subset of the three keys. -/
structure UpdatePayload where
  name : Option String
  description : Option String
  ingredients : Option (List IngredientPayload)
deriving DecidableEq

/-- Validation of a POST body by the declared serializer fields under DRF
defaults: `name` is required and non-blank; `ingredients` is required
(`IngredientSerializer(many=True)` with no `required=False`) and each entry
needs a non-blank `name`; the list itself may be empty because `allow_empty`
defaults to `true` on `many=True` serializers. `description` is optional. -/
def CreatePayload.valid (p : CreatePayload) : Bool :=
  (match p.name with
   | some n => n != ""
   | none => false) &&
  (match p.ingredients with
   | some l => l.all (fun i => i.name != "")
   | none => false)

/-- Validation of a PATCH body: with `partial=True` absent fields are skipped,
present fields are validated as on Create. -/
def UpdatePayload.valid (p : UpdatePayload) : Bool :=
  (match p.name with
   | some n => n != ""
   | none => true) &&
  (match p.ingredients with
   | some l => l.all (fun i => i.name != "")
   | none => true)

/-- `RecipeSerializer.create` (serializers.py lines 19-24): pop the ingredients
list, create the recipe row from the remaining fields (the model defaults
`description` to the empty string when absent), then insert one ingredient row
per entry. Returns the created recipe object. -/
def RecipeSerializer.create (s : Store) (p : CreatePayload) : Store × Recipe :=
  let recipe : Recipe :=
    { id := s.nextRecipeId, name := p.name.getD "", description := p.description.getD "" }
  let s1 : Store := { s with recipes := s.recipes ++ [recipe], nextRecipeId := s.nextRecipeId + 1 }
  (s1.createIngredients recipe.id (p.ingredients.getD []), recipe)

/-- `RecipeSerializer.update` (serializers.py lines 26-33), step by step:
set `instance.name` in memory, delete every ingredient row of the recipe
(committed at once — autocommit, no transaction), then
`validated_data.pop('ingredients')`: when the key is absent this raises
`KeyError`, modelled as `.error` carrying the store as already committed
(old ingredients gone, recipe row untouched since `instance.save()` was not
reached). Otherwise insert the new rows, save the instance (which writes
`name`; `description` was never assigned, so the old value is rewritten),
and return it. -/
def RecipeSerializer.update (s : Store) (inst : Recipe) (p : UpdatePayload) :
    Except Store (Store × Recipe) :=
  let newInst : Recipe := { inst with name := p.name.getD inst.name }
  let s1 := s.deleteIngredientsForRecipe inst.id
  match p.ingredients with
  | none => .error s1
  | some l =>
    let s2 := s1.createIngredients inst.id l
    let s3 := s2.saveRecipe newInst
    .ok (s3, newInst)

/-- HTTP-style outcome of an endpoint. -/
inductive HStatus where
  | ok
  | created
  | noContent
  | badRequest
  | notFound
  | serverError
deriving DecidableEq

/-- The serialized recipe shape `{id, name, description, ingredients:[{name}]}`:
nested ingredients expose the name only. -/
structure RecipeOut where
  id : Nat
  name : String
  description : String
  ingredients : List String
deriving DecidableEq

/-- Serialize a recipe row together with its attached ingredient names. -/
def Store.recipeOut (s : Store) (r : Recipe) : RecipeOut :=
  { id := r.id, name := r.name, description := r.description
    ingredients := s.ingredientNamesFor r.id }

/-- Modelled from the spec: `recipe/views.py` is not in src/. The Create
endpoint (POST /recipes) validates the payload through the serializer (whose
declared fields are in src/) and on success runs `RecipeSerializer.create`,
answering 201 with the created recipe; on validation failure it answers 400
and commits nothing. -/
def createRecipe (s : Store) (p : CreatePayload) : Store × HStatus × Option RecipeOut :=
  if p.valid then
    let res := RecipeSerializer.create s p
    (res.1, HStatus.created, some (res.1.recipeOut res.2))
  else
    (s, HStatus.badRequest, none)

/-- Modelled from the spec: the Retrieve endpoint (GET /recipes/id) answers
the recipe with its ingredients and 200, or 404 when the id is unknown. -/
def retrieveRecipe (s : Store) (rid : Nat) : HStatus × Option RecipeOut :=
  match s.findRecipe rid with
  | none => (HStatus.notFound, none)
  | some r => (HStatus.ok, some (s.recipeOut r))

/-- Case-sensitive unanchored substring test on character lists: does the
list start with the needle? -/
def charsStartWith : List Char → List Char → Bool
  | [], _ => true
  | _ :: _, [] => false
  | a :: as, b :: bs => a == b && charsStartWith as bs

/-- Case-sensitive unanchored substring test on character lists. -/
def charsContain (needle : List Char) : List Char → Bool
  | [] => charsStartWith needle []
  | c :: cs => charsStartWith needle (c :: cs) || charsContain needle cs

/-- Modelled from the spec: the `name` query filter matches recipes whose name
contains the filter value as a case-sensitive, unanchored substring (Django
`name__contains`). -/
def strContains (hay needle : String) : Bool :=
  charsContain needle.toList hay.toList

/-- Modelled from the spec: the List endpoint (GET /recipes?name=q) answers
every recipe when no filter is given, else those whose name contains the
filter as a case-sensitive substring; always 200 with a (possibly empty) list. -/
def listRecipes (s : Store) (filt : Option String) : HStatus × List RecipeOut :=
  let rs := match filt with
    | none => s.recipes
    | some q => s.recipes.filter (fun r => strContains r.name q)
  (HStatus.ok, rs.map (fun r => s.recipeOut r))

/-- Modelled from the spec for the view part (`recipe/views.py` is not in
src/): the Update endpoint (PATCH /recipes/id) looks the recipe up (404 when
unknown), validates the partial payload, and runs `RecipeSerializer.update`
(which is in src/); an uncaught `KeyError` from the serializer surfaces as a
500 with the partially committed store standing. -/
def updateRecipe (s : Store) (rid : Nat) (p : UpdatePayload) :
    Store × HStatus × Option RecipeOut :=
  match s.findRecipe rid with
  | none => (s, HStatus.notFound, none)
  | some inst =>
    if p.valid then
      match RecipeSerializer.update s inst p with
      | .error s1 => (s1, HStatus.serverError, none)
      | .ok res => (res.1, HStatus.ok, some (res.1.recipeOut res.2))
    else
      (s, HStatus.badRequest, none)

/-- Modelled from the spec: the Delete endpoint (DELETE /recipes/id) removes
the recipe row and, by the cascade rule of the data model, every ingredient
row owned by it; answers 204, or 404 when the id is unknown. -/
def deleteRecipe (s : Store) (rid : Nat) : Store × HStatus :=
  match s.findRecipe rid with
  | none => (s, HStatus.notFound)
  | some _ =>
    ({ s with
        recipes := s.recipes.filter (fun r => r.id != rid)
        ingredients := s.ingredients.filter (fun i => i.recipe != rid) },
     HStatus.noContent)

/-- Modelled from the spec: `core/models.py` is not in src/; per the spec a
Recipe's string representation equals its `name`. -/
def Recipe.str (r : Recipe) : String := r.name

/-- Modelled from the spec: an Ingredient's string representation equals its
`name`. -/
def Ingredient.str (i : Ingredient) : String := i.name

/-- Well-formedness of a store: all row ids are below the id sequences (ids
are never reused) and every ingredient points at an existing recipe (no
orphans — the foreign-key invariant of the data model). -/
def Store.wf (s : Store) : Bool :=
  s.recipes.all (fun r => decide (r.id < s.nextRecipeId)) &&
  s.ingredients.all (fun i => decide (i.id < s.nextIngredientId)) &&
  s.ingredients.all (fun i => s.recipes.any (fun r => r.id == i.recipe))

/-- The empty store. -/
def emptyStore : Store := { recipes := [], ingredients := [], nextRecipeId := 0, nextIngredientId := 0 }

/-- A store holding the Pizza recipe of the test suite with its three
ingredients. -/
def pizzaStore : Store :=
  { recipes := [{ id := 0, name := "Pizza", description := "Put it in the oven" }]
    ingredients :=
      [{ id := 0, recipe := 0, name := "dough" },
       { id := 1, recipe := 0, name := "cheese" },
       { id := 2, recipe := 0, name := "tomato" }]
    nextRecipeId := 1
    nextIngredientId := 3 }

/-- A store holding the Pizza recipe and the Cheeseburger recipe of the test
suite, with their three resp. four ingredients. -/
def twoRecipeStore : Store :=
  { recipes :=
      [{ id := 0, name := "Pizza", description := "Put it in the oven" },
       { id := 1, name := "Cheeseburger", description := "Buy it from McDonalds" }]
    ingredients :=
      [{ id := 0, recipe := 0, name := "dough" },
       { id := 1, recipe := 0, name := "cheese" },
       { id := 2, recipe := 0, name := "tomato" },
       { id := 3, recipe := 1, name := "beef patty" },
       { id := 4, recipe := 1, name := "cheese" },
       { id := 5, recipe := 1, name := "burger bun" },
       { id := 6, recipe := 1, name := "gherkin" }]
    nextRecipeId := 2
    nextIngredientId := 7 }

/-! General list lemmas used by the store reasoning. -/

/-- Filtering with `q` keeps the result of a later `p`-filter intact when
`p` implies `q`. -/
theorem filter_filter_imp {α : Type} (p q : α → Bool) (l : List α)
    (h : ∀ x, p x = true → q x = true) :
    (l.filter q).filter p = l.filter p := by
  induction l with
  | nil => rfl
  | cons a t ih =>
    cases hq : q a with
    | true =>
      cases hp : p a with
      | true => simp [List.filter_cons, hq, hp, ih]
      | false => simp [List.filter_cons, hq, hp, ih]
    | false =>
      have hp : p a = false := by
        cases hpa : p a with
        | true => exact absurd (h a hpa) (by simp [hq])
        | false => rfl
      simp [List.filter_cons, hq, hp, ih]

/-- Filtering with `q` then with a `p` that excludes everything `q` kept
yields the empty list. -/
theorem filter_filter_contra {α : Type} (p q : α → Bool) (l : List α)
    (h : ∀ x, q x = true → p x = false) :
    (l.filter q).filter p = [] := by
  induction l with
  | nil => rfl
  | cons a t ih =>
    cases hq : q a with
    | true => simp [List.filter_cons, hq, h a hq, ih]
    | false => simp [List.filter_cons, hq, ih]

/-- Filtering with `q` does not change the first `p`-hit when `p` implies `q`. -/
theorem find_on_filter_imp {α : Type} (p q : α → Bool) (l : List α)
    (h : ∀ x, p x = true → q x = true) :
    (l.filter q).find? p = l.find? p := by
  induction l with
  | nil => rfl
  | cons a t ih =>
    cases hq : q a with
    | true =>
      cases hp : p a with
      | true => simp [List.filter_cons, List.find?_cons, hq, hp]
      | false => simp [List.filter_cons, List.find?_cons, hq, hp, ih]
    | false =>
      have hp : p a = false := by
        cases hpa : p a with
        | true => exact absurd (h a hpa) (by simp [hq])
        | false => rfl
      simp [List.filter_cons, List.find?_cons, hq, hp, ih]

/-- After filtering with `q`, a `p` excluded by `q` finds nothing. -/
theorem find_on_filter_contra {α : Type} (p q : α → Bool) (l : List α)
    (h : ∀ x, q x = true → p x = false) :
    (l.filter q).find? p = none := by
  induction l with
  | nil => rfl
  | cons a t ih =>
    cases hq : q a with
    | true => simp [List.filter_cons, List.find?_cons, hq, h a hq, ih]
    | false => simp [List.filter_cons, hq, ih]

/-- `find?` skips a first block where it finds nothing. -/
theorem find_on_append_of_none {α : Type} (p : α → Bool) (l1 l2 : List α)
    (h : l1.find? p = none) : (l1 ++ l2).find? p = l2.find? p := by
  rw [List.find?_append, h, Option.none_or]

/-- Replacing the row the search finds (and no row before it) updates the
search result, provided the replacement keeps the id. -/
theorem find_recipe_map_save (l : List Recipe) (rid : Nat) (inst r : Recipe)
    (hfind : l.find? (fun x => x.id == rid) = some inst) (hid : r.id = inst.id) :
    (l.map (fun x => if x.id == r.id then r else x)).find? (fun x => x.id == rid) = some r := by
  induction l with
  | nil => simp at hfind
  | cons a t ih =>
    cases ha : (a.id == rid) with
    | true =>
      have hai : inst = a := by
        simp [List.find?_cons, ha] at hfind
        exact hfind.symm
      have ha' : a.id = rid := by simpa using ha
      have hr' : r.id = rid := by rw [hid, hai, ha']
      have har : a.id = r.id := by rw [hr', ha']
      simp [List.map_cons, List.find?_cons, har, hr']
    | false =>
      simp only [List.find?_cons, ha] at hfind
      have hinst : (inst.id == rid) = true :=
        @List.find?_some _ (fun x => x.id == rid) inst t hfind
      have h2 : inst.id = rid := by simpa using hinst
      have h1 : ¬ (a.id == r.id) = true := by
        simp [hid, h2]
        simpa using ha
      rw [List.map_cons, if_neg h1, List.find?_cons]
      simp only [ha]
      exact ih hfind

/-! Lemmas about the store operations. -/

/-- Inserting ingredient rows leaves the recipe table unchanged. -/
theorem createIngredients_recipes (s : Store) (rid : Nat) (l : List IngredientPayload) :
    (Store.createIngredients s rid l).recipes = s.recipes := by
  induction l generalizing s with
  | nil => rfl
  | cons a t ih => simpa [Store.createIngredients, Store.createIngredient] using ih _

/-- Inserting ingredient rows for a recipe appends exactly their names, in
list order, to that recipe's attached names. -/
theorem createIngredients_names (s : Store) (rid : Nat) (l : List IngredientPayload) :
    (Store.createIngredients s rid l).ingredientNamesFor rid
      = s.ingredientNamesFor rid ++ l.map (fun i => i.name) := by
  induction l generalizing s with
  | nil => simp [Store.createIngredients]
  | cons a t ih =>
    have hstep : (s.createIngredient rid a.name).ingredientNamesFor rid
        = s.ingredientNamesFor rid ++ [a.name] := by
      simp [Store.createIngredient, Store.ingredientNamesFor, Store.ingredientsFor,
        List.filter_append]
    simp [Store.createIngredients, ih, hstep]

/-- Inserting ingredient rows for one recipe leaves every other recipe's
attached rows unchanged. -/
theorem createIngredients_ingredientsFor_ne (s : Store) (rid rid' : Nat)
    (l : List IngredientPayload) (h : rid' ≠ rid) :
    (Store.createIngredients s rid l).ingredientsFor rid' = s.ingredientsFor rid' := by
  induction l generalizing s with
  | nil => rfl
  | cons a t ih =>
    have hstep : (s.createIngredient rid a.name).ingredientsFor rid' = s.ingredientsFor rid' := by
      simp [Store.createIngredient, Store.ingredientsFor, List.filter_append,
        Ne.symm h]
    simpa [Store.createIngredients, hstep] using ih (s.createIngredient rid a.name)

/-- Deleting a recipe's ingredient rows leaves it with none attached. -/
theorem deleteIngredients_self (s : Store) (rid : Nat) :
    (s.deleteIngredientsForRecipe rid).ingredientsFor rid = [] := by
  refine filter_filter_contra _ _ _ ?_
  intro x hx
  simp at hx
  simp [hx]

/-- Deleting one recipe's ingredient rows leaves every other recipe's rows
unchanged. -/
theorem deleteIngredients_ne (s : Store) (rid rid' : Nat) (h : rid' ≠ rid) :
    (s.deleteIngredientsForRecipe rid).ingredientsFor rid' = s.ingredientsFor rid' := by
  refine filter_filter_imp _ _ _ ?_
  intro x hx
  simp at hx
  simp [hx, h]

/-- Saving a recipe row does not touch the ingredient table. -/
theorem saveRecipe_ingredientsFor (s : Store) (r : Recipe) (rid : Nat) :
    (s.saveRecipe r).ingredientsFor rid = s.ingredientsFor rid := rfl

/-- Saving a recipe row does not touch the attached names of any recipe. -/
theorem saveRecipe_names (s : Store) (r : Recipe) (rid : Nat) :
    (s.saveRecipe r).ingredientNamesFor rid = s.ingredientNamesFor rid := rfl

/-- In a well-formed store no ingredient row points at the still-unassigned
next recipe id. -/
theorem ingredientsFor_next_nil (s : Store) (hwf : s.wf = true) :
    s.ingredientsFor s.nextRecipeId = [] := by
  simp only [Store.wf, Bool.and_eq_true, List.all_eq_true, List.any_eq_true,
    decide_eq_true_eq] at hwf
  obtain ⟨⟨hrec, _⟩, hfk⟩ := hwf
  simp only [Store.ingredientsFor]
  rw [List.filter_eq_nil_iff]
  intro i hi
  obtain ⟨r, hr, hid⟩ := hfk i hi
  have hlt := hrec r hr
  have : r.id = i.recipe := by simpa using hid
  simp
  omega

/-- A recipe found by id carries that id. -/
theorem findRecipe_id (s : Store) (rid : Nat) (inst : Recipe)
    (hfind : s.findRecipe rid = some inst) : inst.id = rid := by
  have hf : s.recipes.find? (fun r => r.id == rid) = some inst := hfind
  have := @List.find?_some _ (fun r => r.id == rid) inst s.recipes hf
  simpa using this

/-- Successful-path characterization of the Update endpoint: with the recipe
found, a valid payload and the ingredients key present, the endpoint deletes
the old rows, inserts the new list and saves the renamed instance. -/
theorem updateRecipe_ok (s : Store) (rid : Nat) (inst : Recipe) (p : UpdatePayload)
    (l : List IngredientPayload)
    (hfind : s.findRecipe rid = some inst)
    (hval : p.valid = true)
    (hing : p.ingredients = some l) :
    updateRecipe s rid p =
      ((((s.deleteIngredientsForRecipe inst.id).createIngredients inst.id l).saveRecipe
          { inst with name := p.name.getD inst.name }),
       HStatus.ok,
       some ((((s.deleteIngredientsForRecipe inst.id).createIngredients inst.id l).saveRecipe
          { inst with name := p.name.getD inst.name }).recipeOut
            { inst with name := p.name.getD inst.name })) := by
  simp [updateRecipe, hfind, hval, RecipeSerializer.update, hing]

/-- On the successful Update path the recipe's attached names afterwards are
exactly the payload names, in payload order. -/
theorem updateRecipe_names (s : Store) (rid : Nat) (inst : Recipe)
    (p : UpdatePayload) (l : List IngredientPayload)
    (hfind : s.findRecipe rid = some inst)
    (hval : p.valid = true)
    (hing : p.ingredients = some l) :
    (updateRecipe s rid p).1.ingredientNamesFor rid = l.map (fun i => i.name) := by
  have hid : inst.id = rid := findRecipe_id s rid inst hfind
  rw [updateRecipe_ok s rid inst p l hfind hval hing]
  rw [saveRecipe_names, hid, createIngredients_names]
  simp [Store.ingredientNamesFor, deleteIngredients_self]

/-- C1: an Update (PATCH) whose payload includes an `ingredients` list fully
replaces the recipe's ingredient set: afterwards the attached ingredient
names are exactly the payload names in payload order, and an empty payload
list leaves the recipe with zero ingredients. -/
theorem update_with_ingredients_replaces_set (s : Store) (rid : Nat) (inst : Recipe)
    (p : UpdatePayload) (l : List IngredientPayload)
    (hfind : s.findRecipe rid = some inst)
    (hval : p.valid = true)
    (hing : p.ingredients = some l) :
    (updateRecipe s rid p).2.1 = HStatus.ok ∧
    (updateRecipe s rid p).1.ingredientNamesFor rid = l.map (fun i => i.name) ∧
    (l = [] → (updateRecipe s rid p).1.ingredientsFor rid = []) := by
  have hid : inst.id = rid := findRecipe_id s rid inst hfind
  refine ⟨?_, updateRecipe_names s rid inst p l hfind hval hing, ?_⟩
  · rw [updateRecipe_ok s rid inst p l hfind hval hing]
  · intro hl
    subst hl
    rw [updateRecipe_ok s rid inst p [] hfind hval hing]
    rw [saveRecipe_ingredientsFor, hid]
    exact deleteIngredients_self s rid

/-- C1 witness: updating the Pizza recipe with the single ingredient
casa-tarradellas answers 200 and leaves exactly that name attached. -/
theorem update_with_ingredients_replaces_set_witness :
    (updateRecipe pizzaStore 0
        { name := none, description := none,
          ingredients := some [{ name := "casa-tarradellas" }] }).2.1 = HStatus.ok ∧
    (updateRecipe pizzaStore 0
        { name := none, description := none,
          ingredients := some [{ name := "casa-tarradellas" }] }).1.ingredientNamesFor 0
      = ["casa-tarradellas"] := by
  have h := update_with_ingredients_replaces_set pizzaStore 0
      { id := 0, name := "Pizza", description := "Put it in the oven" }
      { name := none, description := none,
        ingredients := some [{ name := "casa-tarradellas" }] }
      [{ name := "casa-tarradellas" }] (by decide) (by decide) rfl
  exact ⟨h.1, h.2.1⟩

/-- C2: the claim fails as a crash in the code: a PATCH without the
`ingredients` key first deletes every ingredient row of the recipe (each ORM
call commits on its own), then the unconditional `pop('ingredients')` raises
`KeyError`, surfaced as a 500 — the recipe does not keep its prior
ingredient set. -/
theorem update_without_ingredients_deletes_then_errors :
    pizzaStore.ingredientNamesFor 0 = ["dough", "cheese", "tomato"] ∧
    (updateRecipe pizzaStore 0
        { name := some "Pizza v2", description := none, ingredients := none }).2.1
      = HStatus.serverError ∧
    (updateRecipe pizzaStore 0
        { name := some "Pizza v2", description := none,
          ingredients := none }).1.ingredientNamesFor 0
      = [] := by decide

/-- C7: Update is not atomic with respect to the ingredient set: on the
`KeyError` failure path (the only failing step of delete-then-insert the
source can hit) the store is left with the recipe's ingredient set emptied,
not with its prior set — nothing wraps the steps in a transaction. -/
theorem update_failure_leaves_empty_not_prior_set :
    ((updateRecipe pizzaStore 0
        { name := none, description := none, ingredients := none }).2.1
      = HStatus.serverError) ∧
    (updateRecipe pizzaStore 0
        { name := none, description := none, ingredients := none }).1.ingredientNamesFor 0
      ≠ pizzaStore.ingredientNamesFor 0 ∧
    (updateRecipe pizzaStore 0
        { name := none, description := none, ingredients := none }).1.ingredientNamesFor 0
      = [] := by decide

/-- C3 counterexample: a Create payload with an empty `ingredients` list
passes validation (the `many=True` list serializer accepts empty lists by
default) and answers 201 with a recipe holding zero ingredients, not 400. -/
theorem create_with_empty_ingredients_accepted :
    (createRecipe emptyStore
        { name := some "Pizza", description := some "Put it in the oven",
          ingredients := some [] }).2.1 = HStatus.created ∧
    (createRecipe emptyStore
        { name := some "Pizza", description := some "Put it in the oven",
          ingredients := some [] }).2.1 ≠ HStatus.badRequest ∧
    (createRecipe emptyStore
        { name := some "Pizza", description := some "Put it in the oven",
          ingredients := some [] }).1.ingredientNamesFor 0 = [] := by decide

/-- C3 amended: a Create payload with the `ingredients` key absent always
fails validation with 400 and leaves the store unchanged, regardless of the
other fields. -/
theorem create_without_ingredients_key_rejected (s : Store) (p : CreatePayload)
    (h : p.ingredients = none) :
    createRecipe s p = (s, HStatus.badRequest, none) := by
  have hv : p.valid = false := by
    simp [CreatePayload.valid, h]
  simp [createRecipe, hv]

/-- C3 amended witness: the concrete no-ingredients-key POST of the test
suite is rejected with 400 and the store stands. -/
theorem create_without_ingredients_key_rejected_witness :
    createRecipe pizzaStore
        { name := some "Pizza", description := some "Put it in the oven", ingredients := none }
      = (pizzaStore, HStatus.badRequest, none) :=
  create_without_ingredients_key_rejected pizzaStore
    { name := some "Pizza", description := some "Put it in the oven", ingredients := none } rfl

/-- C4 counterexample: a PATCH carrying a new description value (together
with an ingredients list, so the handler does not crash) answers 200 but the
stored description stays the old one. -/
theorem update_description_value_ignored_example :
    (updateRecipe pizzaStore 0
        { name := none, description := some "New and improved",
          ingredients := some [{ name := "dough" }] }).2.1 = HStatus.ok ∧
    ((updateRecipe pizzaStore 0
        { name := none, description := some "New and improved",
          ingredients := some [{ name := "dough" }] }).1.findRecipe 0).map Recipe.description
      = some "Put it in the oven" ∧
    ((updateRecipe pizzaStore 0
        { name := none, description := some "New and improved",
          ingredients := some [{ name := "dough" }] }).1.findRecipe 0).map Recipe.description
      ≠ some "New and improved" := by decide

/-- Error-path characterization of the Update endpoint: with the recipe
found and a valid payload whose `ingredients` key is absent, the endpoint
commits the delete, hits the `KeyError` and answers 500. -/
theorem updateRecipe_err (s : Store) (rid : Nat) (inst : Recipe) (p : UpdatePayload)
    (hfind : s.findRecipe rid = some inst)
    (hval : p.valid = true)
    (hing : p.ingredients = none) :
    updateRecipe s rid p = (s.deleteIngredientsForRecipe inst.id, HStatus.serverError, none) := by
  simp [updateRecipe, hfind, hval, RecipeSerializer.update, hing]

/-- C4 amended: an Update (PATCH) whose payload includes a `description`
value never replaces the recipe's stored description — the serializer's
update applies only `name` and the ingredient list. When the payload also
carries an `ingredients` list the operation answers 200 with the recipe,
whose reported description is the prior one; when the `ingredients` key is
absent the operation fails with a server error (500), the stored description
still unchanged. -/
theorem update_leaves_description_unchanged (s : Store) (rid : Nat) (inst : Recipe)
    (p : UpdatePayload)
    (hfind : s.findRecipe rid = some inst)
    (hval : p.valid = true)
    (_hdesc : p.description.isSome = true) :
    ((updateRecipe s rid p).1.findRecipe rid).map Recipe.description = some inst.description ∧
    (∀ l : List IngredientPayload, p.ingredients = some l →
      (updateRecipe s rid p).2.1 = HStatus.ok ∧
      ((updateRecipe s rid p).2.2).map RecipeOut.description = some inst.description) ∧
    (p.ingredients = none → (updateRecipe s rid p).2.1 = HStatus.serverError) := by
  cases hing : p.ingredients with
  | none =>
    rw [updateRecipe_err s rid inst p hfind hval hing]
    refine ⟨?_, ?_, fun _ => rfl⟩
    · show (s.findRecipe rid).map Recipe.description = some inst.description
      rw [hfind]
      rfl
    · intro l hl
      exact absurd hl (by simp)
  | some l =>
    rw [updateRecipe_ok s rid inst p l hfind hval hing]
    refine ⟨?_, ?_, ?_⟩
    · have hrecs : ((s.deleteIngredientsForRecipe inst.id).createIngredients inst.id l).recipes
          = s.recipes := createIngredients_recipes _ _ _
      have hf2 : ((s.deleteIngredientsForRecipe inst.id).createIngredients
          inst.id l).recipes.find? (fun x => x.id == rid) = some inst := by
        rw [hrecs]
        exact hfind
      have hsave := find_recipe_map_save
          ((s.deleteIngredientsForRecipe inst.id).createIngredients inst.id l).recipes rid inst
          { inst with name := p.name.getD inst.name } hf2 rfl
      unfold Store.findRecipe Store.saveRecipe
      rw [hsave]
      rfl
    · intro l2 _
      exact ⟨rfl, rfl⟩
    · intro hnone
      exact absurd hnone (by simp)

/-- C4 amended witness: a PATCH with a fresh description and an ingredients
list answers 200 with the old description stored and reported; a PATCH with
only a fresh description answers 500, the stored description still the old
one. -/
theorem update_leaves_description_unchanged_witness :
    ((updateRecipe pizzaStore 0
        { name := none, description := some "Totally new",
          ingredients := some [{ name := "x" }] }).1.findRecipe 0).map Recipe.description
      = some "Put it in the oven" ∧
    (updateRecipe pizzaStore 0
        { name := none, description := some "Totally new",
          ingredients := some [{ name := "x" }] }).2.1 = HStatus.ok ∧
    ((updateRecipe pizzaStore 0
        { name := none, description := some "Totally new",
          ingredients := some [{ name := "x" }] }).2.2).map RecipeOut.description
      = some "Put it in the oven" ∧
    ((updateRecipe pizzaStore 0
        { name := none, description := some "Brand new", ingredients := none }).1.findRecipe 0).map
        Recipe.description
      = some "Put it in the oven" ∧
    (updateRecipe pizzaStore 0
        { name := none, description := some "Brand new", ingredients := none }).2.1
      = HStatus.serverError := by
  have hA := update_leaves_description_unchanged pizzaStore 0
      { id := 0, name := "Pizza", description := "Put it in the oven" }
      { name := none, description := some "Totally new", ingredients := some [{ name := "x" }] }
      (by decide) (by decide) (by decide)
  have hB := update_leaves_description_unchanged pizzaStore 0
      { id := 0, name := "Pizza", description := "Put it in the oven" }
      { name := none, description := some "Brand new", ingredients := none }
      (by decide) (by decide) (by decide)
  exact ⟨hA.1, (hA.2.1 [{ name := "x" }] rfl).1, (hA.2.1 [{ name := "x" }] rfl).2,
    hB.1, hB.2.2 rfl⟩

/-- After `RecipeSerializer.create` on a well-formed store, the returned
recipe carries the fresh id, its attached ingredient names are exactly the
payload names in order, and it is stored under the fresh id. -/
theorem serializer_create_spec (s : Store) (p : CreatePayload) (l : List IngredientPayload)
    (hwf : s.wf = true) (hing : p.ingredients = some l) :
    (RecipeSerializer.create s p).2.id = s.nextRecipeId ∧
    (RecipeSerializer.create s p).1.ingredientNamesFor s.nextRecipeId
      = l.map (fun i => i.name) ∧
    (RecipeSerializer.create s p).1.findRecipe s.nextRecipeId
      = some (RecipeSerializer.create s p).2 := by
  have h0 := ingredientsFor_next_nil s hwf
  have hids : ∀ r ∈ s.recipes, r.id < s.nextRecipeId := by
    simp only [Store.wf, Bool.and_eq_true, List.all_eq_true, decide_eq_true_eq] at hwf
    exact hwf.1.1
  refine ⟨rfl, ?_, ?_⟩
  · simp only [RecipeSerializer.create, hing, Option.getD_some]
    rw [createIngredients_names]
    simp only [Store.ingredientsFor] at h0
    simp [Store.ingredientNamesFor, Store.ingredientsFor, h0]
  · have hn : s.recipes.find? (fun r => r.id == s.nextRecipeId) = none := by
      rw [List.find?_eq_none]
      intro x hx
      have hlt := hids x hx
      simp
      omega
    have hgen : ∀ l2 : List Recipe,
        (s.recipes ++ l2).find? (fun r => r.id == s.nextRecipeId)
          = l2.find? (fun r => r.id == s.nextRecipeId) :=
      fun l2 => find_on_append_of_none _ _ l2 hn
    simp only [RecipeSerializer.create, hing, Option.getD_some, Store.findRecipe]
    rw [createIngredients_recipes]
    simp [hgen, List.find?_cons]

/-- C5: a valid Create with a non-empty ingredients list answers 201 with a
recipe whose serialized ingredient names are exactly the input names (hence
equal as sets), and the recipe is retrievable by the returned id with those
same ingredients attached. -/
theorem create_valid_attaches_exact_ingredients_and_retrievable
    (s : Store) (p : CreatePayload) (l : List IngredientPayload)
    (hwf : s.wf = true) (hval : p.valid = true)
    (hing : p.ingredients = some l) (_hne : l ≠ []) :
    (createRecipe s p).2.1 = HStatus.created ∧
    ∃ ro : RecipeOut, (createRecipe s p).2.2 = some ro ∧
      ro.ingredients = l.map (fun i => i.name) ∧
      retrieveRecipe (createRecipe s p).1 ro.id = (HStatus.ok, some ro) := by
  obtain ⟨hid, hnames, hfindn⟩ := serializer_create_spec s p l hwf hing
  have hcr : createRecipe s p =
      ((RecipeSerializer.create s p).1, HStatus.created,
        some ((RecipeSerializer.create s p).1.recipeOut (RecipeSerializer.create s p).2)) := by
    simp [createRecipe, hval]
  rw [hcr]
  refine ⟨rfl, (RecipeSerializer.create s p).1.recipeOut (RecipeSerializer.create s p).2,
    rfl, ?_, ?_⟩
  · show (RecipeSerializer.create s p).1.ingredientNamesFor (RecipeSerializer.create s p).2.id
      = l.map (fun i => i.name)
    rw [hid]
    exact hnames
  · show retrieveRecipe (RecipeSerializer.create s p).1 (RecipeSerializer.create s p).2.id
      = (HStatus.ok,
         some ((RecipeSerializer.create s p).1.recipeOut (RecipeSerializer.create s p).2))
    rw [hid]
    simp [retrieveRecipe, hfindn]

/-- C5 witness: creating the Pizza recipe of the test suite in the empty
store answers 201, attaches dough, cheese, tomato, and the recipe is
retrievable by its id. -/
theorem create_valid_attaches_exact_ingredients_and_retrievable_witness :
    (createRecipe emptyStore
        { name := some "Pizza", description := some "Put it in the oven",
          ingredients := some [{ name := "dough" }, { name := "cheese" }, { name := "tomato" }] }).2.1
      = HStatus.created ∧
    ∃ ro : RecipeOut,
      (createRecipe emptyStore
        { name := some "Pizza", description := some "Put it in the oven",
          ingredients := some [{ name := "dough" }, { name := "cheese" }, { name := "tomato" }] }).2.2
        = some ro ∧
      ro.ingredients
        = ([{ name := "dough" }, { name := "cheese" }, { name := "tomato" }] : List IngredientPayload).map
            (fun i => i.name) ∧
      retrieveRecipe
          (createRecipe emptyStore
            { name := some "Pizza", description := some "Put it in the oven",
              ingredients := some [{ name := "dough" }, { name := "cheese" }, { name := "tomato" }] }).1
          ro.id
        = (HStatus.ok, some ro) :=
  create_valid_attaches_exact_ingredients_and_retrievable emptyStore
    { name := some "Pizza", description := some "Put it in the oven",
      ingredients := some [{ name := "dough" }, { name := "cheese" }, { name := "tomato" }] }
    [{ name := "dough" }, { name := "cheese" }, { name := "tomato" }]
    (by decide) (by decide) rfl (by decide)

/-- C6: Delete on an existing recipe answers 204, removes the recipe (a
subsequent Retrieve answers 404) and cascades to all its ingredient rows,
while every other recipe and all of its ingredient rows are left exactly as
they were. -/
theorem delete_cascades_and_preserves_others (s : Store) (rid : Nat) (inst : Recipe)
    (hfind : s.findRecipe rid = some inst) :
    (deleteRecipe s rid).2 = HStatus.noContent ∧
    (retrieveRecipe (deleteRecipe s rid).1 rid).1 = HStatus.notFound ∧
    (deleteRecipe s rid).1.ingredientsFor rid = [] ∧
    (∀ rid2 : Nat, rid2 ≠ rid →
      (deleteRecipe s rid).1.findRecipe rid2 = s.findRecipe rid2 ∧
      (deleteRecipe s rid).1.ingredientsFor rid2 = s.ingredientsFor rid2) := by
  have hdel : deleteRecipe s rid =
      ({ s with recipes := s.recipes.filter (fun r => r.id != rid),
                ingredients := s.ingredients.filter (fun i => i.recipe != rid) },
       HStatus.noContent) := by
    simp [deleteRecipe, hfind]
  rw [hdel]
  refine ⟨rfl, ?_, ?_, ?_⟩
  · have hnone : (s.recipes.filter (fun r => r.id != rid)).find? (fun r => r.id == rid)
        = none := by
      refine find_on_filter_contra _ _ _ ?_
      intro x hx
      simp at hx
      simp [hx]
    simp [retrieveRecipe, Store.findRecipe, hnone]
  · exact filter_filter_contra (fun i => i.recipe == rid) (fun i => i.recipe != rid)
      s.ingredients (by intro x hx; simp at hx; simp [hx])
  · intro rid2 hne2
    constructor
    · exact find_on_filter_imp (fun r => r.id == rid2) (fun r => r.id != rid)
        s.recipes (by intro x hx; simp at hx; simp [hx, hne2])
    · exact filter_filter_imp (fun i => i.recipe == rid2) (fun i => i.recipe != rid)
        s.ingredients (by intro x hx; simp at hx; simp [hx, hne2])

/-- C6 witness: deleting the Pizza recipe from the two-recipe store answers
204, Retrieve on it answers 404, its ingredient rows are gone, and the
Cheeseburger recipe keeps its row and all four ingredient rows. -/
theorem delete_cascades_and_preserves_others_witness :
    (deleteRecipe twoRecipeStore 0).2 = HStatus.noContent ∧
    (retrieveRecipe (deleteRecipe twoRecipeStore 0).1 0).1 = HStatus.notFound ∧
    (deleteRecipe twoRecipeStore 0).1.ingredientsFor 0 = [] ∧
    (deleteRecipe twoRecipeStore 0).1.findRecipe 1 = twoRecipeStore.findRecipe 1 ∧
    (deleteRecipe twoRecipeStore 0).1.ingredientsFor 1 = twoRecipeStore.ingredientsFor 1 := by
  have h := delete_cascades_and_preserves_others twoRecipeStore 0
      { id := 0, name := "Pizza", description := "Put it in the oven" } (by decide)
  exact ⟨h.1, h.2.1, h.2.2.1, (h.2.2.2 1 (by decide)).1, (h.2.2.2 1 (by decide)).2⟩

/-- C8: List never fails: with no filter it answers 200 with one serialized
entry per stored recipe; with a name filter it answers 200 with exactly the
stored recipes whose name contains the filter value as a case-sensitive
unanchored substring — concretely, Pi matches Pizza but not Cheeseburger. -/
theorem list_filter_characterization (s : Store) (q : String) :
    (listRecipes s none).1 = HStatus.ok ∧
    (listRecipes s none).2 = s.recipes.map (fun r => s.recipeOut r) ∧
    (listRecipes s (some q)).1 = HStatus.ok ∧
    (listRecipes s (some q)).2
      = (s.recipes.filter (fun r => strContains r.name q)).map (fun r => s.recipeOut r) ∧
    (∀ r ∈ s.recipes, strContains r.name q = true →
      s.recipeOut r ∈ (listRecipes s (some q)).2) ∧
    (∀ ro ∈ (listRecipes s (some q)).2,
      ∃ r ∈ s.recipes, strContains r.name q = true ∧ ro = s.recipeOut r) ∧
    strContains "Pizza" "Pi" = true ∧
    strContains "Cheeseburger" "Pi" = false := by
  refine ⟨rfl, rfl, rfl, rfl, ?_, ?_, by decide, by decide⟩
  · intro r hr hc
    simp [listRecipes, List.mem_map, List.mem_filter]
    exact ⟨r, ⟨hr, hc⟩, rfl⟩
  · intro ro hro
    simp [listRecipes, List.mem_map, List.mem_filter] at hro
    obtain ⟨r, ⟨hr, hc⟩, heq⟩ := hro
    exact ⟨r, hr, hc, heq.symm⟩

/-- C8 witness: on the Pizza store, searching for Pi answers 200 with the
filtered mapping, and the substring check matches Pizza but not
Cheeseburger. -/
theorem list_filter_characterization_witness :
    (listRecipes pizzaStore (some "Pi")).1 = HStatus.ok ∧
    (listRecipes pizzaStore (some "Pi")).2
      = (pizzaStore.recipes.filter (fun r => strContains r.name "Pi")).map
          (fun r => pizzaStore.recipeOut r) ∧
    strContains "Pizza" "Pi" = true ∧
    strContains "Cheeseburger" "Pi" = false := by
  have h := list_filter_characterization pizzaStore "Pi"
  exact ⟨h.1, h.2.2.2.1, h.2.2.2.2.2.2.1, h.2.2.2.2.2.2.2⟩

/-- C9: every Recipe's string representation equals its name field, and every
Ingredient's string representation equals its name field. -/
theorem str_equals_name :
    (∀ r : Recipe, r.str = r.name) ∧ (∀ i : Ingredient, i.str = i.name) :=
  ⟨fun _ => rfl, fun _ => rfl⟩

/-- C9 witness: the concrete recipe and ingredient of the model tests. -/
theorem str_equals_name_witness :
    Recipe.str { id := 0, name := "Steak and mushroom sauce", description := "Cook in oven" }
      = "Steak and mushroom sauce" ∧
    Ingredient.str { id := 0, recipe := 0, name := "Cucumber" } = "Cucumber" :=
  ⟨str_equals_name.1 { id := 0, name := "Steak and mushroom sauce", description := "Cook in oven" },
   str_equals_name.2 { id := 0, recipe := 0, name := "Cucumber" }⟩

/-- C10: ingredient names are not deduplicated or uniqueness-checked: both
Create and an Update replacement list insert one ingredient row per payload
entry, in list order, so a payload repeating a name leaves duplicate names
attached. -/
theorem ingredient_duplicates_preserved
    (s t : Store) (p : CreatePayload) (q : UpdatePayload) (l : List IngredientPayload)
    (rid : Nat) (inst : Recipe)
    (hwf : s.wf = true) (hpval : p.valid = true) (hping : p.ingredients = some l)
    (hfind : t.findRecipe rid = some inst) (hqval : q.valid = true)
    (hqing : q.ingredients = some l) :
    (createRecipe s p).1.ingredientNamesFor s.nextRecipeId = l.map (fun i => i.name) ∧
    (updateRecipe t rid q).1.ingredientNamesFor rid = l.map (fun i => i.name) := by
  constructor
  · have hn := (serializer_create_spec s p l hwf hping).2.1
    have hst : (createRecipe s p).1 = (RecipeSerializer.create s p).1 := by
      simp [createRecipe, hpval]
    rw [hst]
    exact hn
  · exact updateRecipe_names t rid inst q l hfind hqval hqing

/-- C10 witness: a Create payload listing cheese twice leaves the new recipe
with two attached rows both named cheese, and an Update replacing the Pizza
ingredients with the same doubled list does too. -/
theorem ingredient_duplicates_preserved_witness :
    (createRecipe emptyStore
        { name := some "Cheese plate", description := none,
          ingredients := some [{ name := "cheese" }, { name := "cheese" }] }).1.ingredientNamesFor 0
      = ["cheese", "cheese"] ∧
    (updateRecipe pizzaStore 0
        { name := none, description := none,
          ingredients := some [{ name := "cheese" }, { name := "cheese" }] }).1.ingredientNamesFor 0
      = ["cheese", "cheese"] :=
  ingredient_duplicates_preserved emptyStore pizzaStore
    { name := some "Cheese plate", description := none,
      ingredients := some [{ name := "cheese" }, { name := "cheese" }] }
    { name := none, description := none,
      ingredients := some [{ name := "cheese" }, { name := "cheese" }] }
    [{ name := "cheese" }, { name := "cheese" }] 0
    { id := 0, name := "Pizza", description := "Put it in the oven" }
    (by decide) (by decide) rfl (by decide) (by decide) rfl

end RecipeApp
